import Mathlib

/-!
Verification of the safrs demo application
(`examples/demo_pythonanywhere_com.py`) against its specification.

The demo file declares SQLAlchemy models (`Person`, `Book`, `Publisher`,
`Review`), hands them to the safrs framework, and seeds a database.  The
declarations, the seed loop, the custom RPC methods and the custom
serialization hook are embedded below directly from the source; the parts of
the behaviour that live inside the safrs framework (payload serialization,
pagination, request dispatch, foreign-key and primary-key enforcement) are
modelled from the spec, as marked on each definition.
-/

/-- A column descriptor as declared through `db.Column` in the demo file.
`db.Column` carries no `expose` attribute (the framework treats it as
exposed); the demo subclass `HiddenColumn` sets the class attribute
`expose = False`. -/
structure Column where
  name : String
  expose : Bool
  deriving DecidableEq, Repr

/-- The columns of `Person` as declared in the source: `id`, `name`, `email`,
`comment` (a `DocumentedColumn`, which is exposed), `dob`, and `password`
declared as a `HiddenColumn`, i.e. with `expose = False`. -/
def Person.columns : List Column :=
  [⟨"id", true⟩, ⟨"name", true⟩, ⟨"email", true⟩,
   ⟨"comment", true⟩, ⟨"dob", true⟩, ⟨"password", false⟩]

/-- The columns of `Publisher` as declared in the source: an integer `id`
primary key and `name`; both plain `db.Column`s, hence exposed. -/
def Publisher.columns : List Column :=
  [⟨"id", true⟩, ⟨"name", true⟩]

/-- Modelled from the spec: the framework serializes an entity by emitting one
payload field per exposed column; fields marked non-exposed are excluded from
every serialized payload.  (The serializer itself is safrs framework code, not
part of the demo file.) -/
def serializedFieldNames (cols : List Column) : List String :=
  (cols.filter (fun c => c.expose)).map (fun c => c.name)

/-- Modelled from the spec: the generated documentation (swagger) lists one
field per exposed column; fields marked non-exposed are excluded from the
generated documentation.  (The swagger generator is safrs framework code, not
part of the demo file.) -/
def docFieldNames (cols : List Column) : List String :=
  (cols.filter (fun c => c.expose)).map (fun c => c.name)

/-- C1: a field name all of whose declaring columns are flagged non-exposed
(`expose = False`, as `Person.password` declared via `HiddenColumn`) appears
neither in the serialized payload nor in the generated documentation. -/
theorem hidden_field_never_serialized (cols : List Column) (nm : String)
    (h : ∀ c ∈ cols, c.name = nm → c.expose = false) :
    nm ∉ serializedFieldNames cols ∧ nm ∉ docFieldNames cols := by
  constructor <;>
  · intro hmem
    simp only [serializedFieldNames, docFieldNames, List.mem_map,
      List.mem_filter] at hmem
    obtain ⟨c, ⟨hc, hexp⟩, hname⟩ := hmem
    have := h c hc hname
    simp [this] at hexp

/-- C1 witness: `Person.password` is declared with `expose = False` and is
absent from the serialized payload and from the documentation of `Person`. -/
theorem hidden_field_never_serialized_witness :
    "password" ∉ serializedFieldNames Person.columns ∧
    "password" ∉ docFieldNames Person.columns :=
  hidden_field_never_serialized Person.columns "password" (by decide)

/-- The HTTP verbs allowed on the `Review` resource, from the source:
`http_methods = {"GET", "POST"}`. -/
def Review.http_methods : List String := ["GET", "POST"]

/-- Modelled from the spec: the framework accepts a request on a resource iff
the request method belongs to the resource's declared `http_methods` set.
(The dispatch code is safrs framework code, not part of the demo file.) -/
def methodAccepted (methods : List String) (m : String) : Bool :=
  methods.contains m

/-- C3: a request to a `Review` endpoint is accepted iff its method is GET or
POST; in particular PATCH and DELETE are rejected. -/
theorem review_http_methods_subset (m : String) :
    (methodAccepted Review.http_methods m = true ↔ m = "GET" ∨ m = "POST") ∧
    methodAccepted Review.http_methods "PATCH" = false ∧
    methodAccepted Review.http_methods "DELETE" = false := by
  refine ⟨?_, by decide, by decide⟩
  show Review.http_methods.elem m = true ↔ _
  rw [List.elem_iff]
  simp [Review.http_methods, eq_comm]

/-- A `Person` row (`People` table): string pk `id` (modelled as a natural
number standing for the generated uuid), `name`, `email`, `comment`, and the
hidden `password` column.  `dob` is never set by the demo and is omitted. -/
structure PersonRow where
  id : Nat
  name : String
  email : String
  password : String
  deriving DecidableEq, Repr

/-- A `Book` row (`Books` table): string pk `id` (modelled as a natural
number), `title`, and the three foreign keys `reader_id`, `author_id`,
`publisher_id`. -/
structure BookRow where
  id : Nat
  title : String
  reader_id : Option Nat
  author_id : Option Nat
  publisher_id : Option Nat
  deriving DecidableEq, Repr

/-- A `Review` row (`Reviews` table): composite primary key
`(reader_id, book_id)`, the free-text `review`, and the `created` timestamp
(modelled as a natural number). -/
structure ReviewRow where
  reader_id : Nat
  book_id : Nat
  review : String
  created : Nat
  deriving DecidableEq, Repr

/-- A `Publisher` row (`Publishers` table): integer pk `id` and `name`. -/
structure PublisherRow where
  id : Nat
  name : String
  deriving DecidableEq, Repr

/-- The database: one list of rows per table, in insertion order. -/
structure Store where
  people : List PersonRow
  books : List BookRow
  reviews : List ReviewRow
  publishers : List PublisherRow
  deriving DecidableEq, Repr

def emptyStore : Store := ⟨[], [], [], []⟩

/-- Stand-in for `hashlib.sha256(bytes(i)).hexdigest()`: the digest of an
external library, whose concrete value is irrelevant to every claim; only
that it is some string computed from `i`. -/
def sha256hex (i : Nat) : String := "digest" ++ toString i

/-- The source declares `created = db.Column(db.DateTime,
default=datetime.datetime.now())`: the call `datetime.datetime.now()` is
evaluated ONCE, when the class body is executed at module load, so the
column default is that fixed timestamp, not the row-creation time.
`classDefTime` is the timestamp captured at class definition. -/
def Review.createdDefault (classDefTime : Nat) : Nat := classDefTime

/-- One iteration of the seed loop in `start_api` (source lines 217-230): it
creates a reader `Person`, an author `Person`, a `Book`, a `Review` (with a
defaulted `created`), and a `Publisher`, wires the relationships, and adds
all five objects.  Row ids model the generated uuids / autoincrement pks:
people get ids `2*i` and `2*i+1`, books id `i`, publishers id `i+1`. -/
def seedStep (classDefTime : Nat) (s : Store) (i : Nat) : Store :=
  let reader : PersonRow :=
    ⟨2 * i, "Reader " ++ toString i, "reader_email" ++ toString i, sha256hex i⟩
  let author : PersonRow :=
    ⟨2 * i + 1, "Author " ++ toString i, "author_email" ++ toString i, ""⟩
  let book : BookRow :=
    ⟨i, "book_title" ++ toString i, some (2 * i), some (2 * i + 1), some (i + 1)⟩
  let review : ReviewRow :=
    ⟨2 * i, i, "review " ++ toString i, Review.createdDefault classDefTime⟩
  let publisher : PublisherRow := ⟨i + 1, "name" ++ toString i⟩
  { people := s.people ++ [reader, author],
    books := s.books ++ [book],
    reviews := s.reviews ++ [review],
    publishers := s.publishers ++ [publisher] }

/-- The seed/bootstrap routine of `start_api`: run the seed loop for
`n` iterations (`NR_INSTANCES = 200` in the source, so each run creates
`2*n` People, `n` Books, `n` Reviews and `n` Publishers). -/
def seed (classDefTime : Nat) (n : Nat) : Store :=
  (List.range n).foldl (seedStep classDefTime) emptyStore

/-- Modelled from the spec: a collection endpoint's response includes the
total count of rows of that entity, i.e. the number of rows in its table.
(The count is computed by safrs framework code, not part of the demo file.) -/
def collectionTotal (rows : List Nat) : Nat := rows.length

def peopleTotal (s : Store) : Nat := collectionTotal (s.people.map (fun p => p.id))

def booksTotal (s : Store) : Nat := collectionTotal (s.books.map (fun b => b.id))

def reviewsTotal (s : Store) : Nat := collectionTotal (s.reviews.map (fun r => r.reader_id))

def publishersTotal (s : Store) : Nat := collectionTotal (s.publishers.map (fun p => p.id))

/-- C2 counterexample: running the seed loop with parameter 5 yields 5 Books
but 10 People, because each iteration creates two `Person` rows (a reader and
an author), so the People collection reports a total of 10, not 5. -/
theorem seed_five_people_total_not_five :
    booksTotal (seed 0 5) = 5 ∧ peopleTotal (seed 0 5) = 10 ∧
    ¬ peopleTotal (seed 0 5) = 5 := by
  refine ⟨rfl, rfl, fun h => ?_⟩
  rw [show peopleTotal (seed 0 5) = 10 from rfl] at h
  exact absurd h (by omega)

/-- C2 (amended): after the seed routine with loop parameter `n`, the Books,
Reviews and Publishers collection endpoints each report a total of `n`, and
the People collection endpoint reports `2 * n` (two `Person` rows are created
per iteration); each total equals the number of rows actually seeded. -/
theorem seed_totals (classDefTime n : Nat) :
    peopleTotal (seed classDefTime n) = 2 * n ∧
    booksTotal (seed classDefTime n) = n ∧
    reviewsTotal (seed classDefTime n) = n ∧
    publishersTotal (seed classDefTime n) = n := by
  induction n with
  | zero => exact ⟨rfl, rfl, rfl, rfl⟩
  | succ k ih =>
    obtain ⟨hp, hb, hr, hpu⟩ := ih
    have hstep : seed classDefTime (k + 1) =
        seedStep classDefTime (seed classDefTime k) k := by
      simp [seed, List.range_succ]
    simp only [peopleTotal, booksTotal, reviewsTotal, publishersTotal,
      collectionTotal, List.length_map] at hp hb hr hpu ⊢
    rw [hstep]
    simp only [seedStep, List.length_append, List.length_cons,
      List.length_nil]
    omega

/-- An error response returned to the client: an HTTP status (4xx for client
errors) and a descriptive message. -/
structure ClientError where
  status : Nat
  message : String
  deriving DecidableEq, Repr

/-- Modelled from the spec: creating a `Review` row through its POST
endpoint.  The `Reviews` table declares `reader_id` (and `book_id`) foreign
keys and `(reader_id, book_id)` the composite primary key; per the spec,
foreign keys must reference existing rows (a missing reference yields a
referential-integrity client error, not a crash) and the composite key is
unique (a duplicate is rejected); in both failure cases the store is left
unchanged.  On success the row is appended; a missing `created` value falls
back to the column default, which is the timestamp captured once at class
definition (`Review.createdDefault`), not the request time `now`. -/
def createReview (classDefTime : Nat) (s : Store) (reader_id book_id : Nat)
    (text : String) (createdArg : Option Nat) (now : Nat) :
    Store × Except ClientError ReviewRow :=
  if ¬ s.people.any (fun p => p.id == reader_id) then
    (s, .error ⟨404, "referential integrity error: reader_id references no Person row"⟩)
  else if ¬ s.books.any (fun b => b.id == book_id) then
    (s, .error ⟨404, "referential integrity error: book_id references no Book row"⟩)
  else if s.reviews.any (fun r => r.reader_id == reader_id && r.book_id == book_id) then
    (s, .error ⟨409, "duplicate composite primary key (reader_id, book_id)"⟩)
  else
    let row : ReviewRow :=
      ⟨reader_id, book_id, text, createdArg.getD (Review.createdDefault classDefTime)⟩
    ({ s with reviews := s.reviews ++ [row] }, .ok row)

/-- C5: creating a Review whose `reader_id` references no existing Person row
yields a client error (a 4xx status with a descriptive message) and leaves
the store unchanged. -/
theorem create_review_missing_reader (classDefTime : Nat) (s : Store)
    (reader_id book_id now : Nat) (text : String) (createdArg : Option Nat)
    (h : ∀ p ∈ s.people, p.id ≠ reader_id) :
    (createReview classDefTime s reader_id book_id text createdArg now).1 = s ∧
    ∃ e, (createReview classDefTime s reader_id book_id text createdArg now).2
        = .error e ∧ 400 ≤ e.status ∧ e.status < 500 ∧ e.message ≠ "" := by
  have hany : s.people.any (fun p => p.id == reader_id) = false := by
    rw [List.any_eq_false]
    intro p hp
    simpa using h p hp
  constructor
  · simp [createReview, hany]
  · refine ⟨⟨404,
      "referential integrity error: reader_id references no Person row"⟩,
      ?_, by decide, by decide, by decide⟩
    simp [createReview, hany]

/-- C5 witness: on a store holding one Person with id 1, creating a Review
with `reader_id = 7` is rejected with a 4xx error and the store is kept. -/
theorem create_review_missing_reader_witness :
    (∀ p ∈ (Store.mk [⟨1, "n", "e", "p"⟩] [] [] []).people, p.id ≠ 7) ∧
    ((createReview 0 (Store.mk [⟨1, "n", "e", "p"⟩] [] [] []) 7 1 "txt" none 5).1
      = Store.mk [⟨1, "n", "e", "p"⟩] [] [] [] ∧
    ∃ e, (createReview 0 (Store.mk [⟨1, "n", "e", "p"⟩] [] [] []) 7 1 "txt" none 5).2
        = .error e ∧ 400 ≤ e.status ∧ e.status < 500 ∧ e.message ≠ "") :=
  ⟨by decide,
   create_review_missing_reader 0 (Store.mk [⟨1, "n", "e", "p"⟩] [] [] [])
     7 1 5 "txt" none (by decide)⟩

/-- The composite primary keys `(reader_id, book_id)` of the Review rows of a
store, in row order. -/
def reviewKeys (s : Store) : List (Nat × Nat) :=
  s.reviews.map (fun r => (r.reader_id, r.book_id))

/-- C8: on a store whose Review composite keys are pairwise distinct,
creating a second Review with an already-present `(reader_id, book_id)` pair
is rejected with a client error and leaves the store unchanged, and after any
`createReview` call (accepted or rejected) the composite keys are still
pairwise distinct. -/
theorem review_composite_key_invariant (classDefTime : Nat) (s : Store)
    (reader_id book_id now : Nat) (text : String) (createdArg : Option Nat)
    (hnd : (reviewKeys s).Nodup) :
    ((reader_id, book_id) ∈ reviewKeys s →
      (createReview classDefTime s reader_id book_id text createdArg now).1 = s ∧
      ∃ e, (createReview classDefTime s reader_id book_id text createdArg now).2
          = .error e) ∧
    (reviewKeys
      (createReview classDefTime s reader_id book_id text createdArg now).1).Nodup := by
  have hmem_iff : (reader_id, book_id) ∈ reviewKeys s ↔
      s.reviews.any
        (fun r => r.reader_id == reader_id && r.book_id == book_id) = true := by
    simp [reviewKeys, List.any_eq_true, Prod.ext_iff]
  by_cases h1 : s.people.any (fun p => p.id == reader_id) = true
  · by_cases h2 : s.books.any (fun b => b.id == book_id) = true
    · by_cases h3 : s.reviews.any
          (fun r => r.reader_id == reader_id && r.book_id == book_id) = true
      · -- duplicate key: rejected, store unchanged
        have hfst :
            (createReview classDefTime s reader_id book_id text createdArg now).1
              = s := by
          simp [createReview, h1, h2, h3]
        refine ⟨fun _ => ⟨hfst,
          ⟨409, "duplicate composite primary key (reader_id, book_id)"⟩,
          by simp [createReview, h1, h2, h3]⟩, ?_⟩
        rw [hfst]; exact hnd
      · -- fresh key: inserted, uniqueness preserved
        have hfst :
            (createReview classDefTime s reader_id book_id text createdArg now).1
              = { s with reviews := s.reviews ++
                  [⟨reader_id, book_id, text,
                    createdArg.getD (Review.createdDefault classDefTime)⟩] } := by
          simp [createReview, h1, h2, h3]
        refine ⟨fun hdup => absurd (hmem_iff.mp hdup) h3, ?_⟩
        rw [hfst]
        have hkeys : reviewKeys { s with reviews := s.reviews ++
            [⟨reader_id, book_id, text,
              createdArg.getD (Review.createdDefault classDefTime)⟩] }
            = reviewKeys s ++ [(reader_id, book_id)] := by
          simp [reviewKeys]
        rw [hkeys]
        refine hnd.append (List.nodup_singleton _) ?_
        intro k hk hk1
        simp only [List.mem_singleton] at hk1
        subst hk1
        exact h3 (hmem_iff.mp hk)
    · have hfst :
          (createReview classDefTime s reader_id book_id text createdArg now).1
            = s := by
        simp [createReview, h1, h2]
      refine ⟨fun _ => ⟨hfst,
        ⟨404, "referential integrity error: book_id references no Book row"⟩,
        by simp [createReview, h1, h2]⟩, ?_⟩
      rw [hfst]; exact hnd
  · have hfst :
        (createReview classDefTime s reader_id book_id text createdArg now).1
          = s := by
      simp [createReview, h1]
    refine ⟨fun _ => ⟨hfst,
      ⟨404, "referential integrity error: reader_id references no Person row"⟩,
      by simp [createReview, h1]⟩, ?_⟩
    rw [hfst]; exact hnd

/-- A small concrete store: one Person (id 1), three Books (ids 1, 2, 3) and
one Review with composite key (1, 1), as the seed routine would produce. -/
def sampleStore : Store :=
  ⟨[⟨1, "Reader 1", "reader_email1", ""⟩],
   [⟨1, "book_title1", some 1, none, none⟩,
    ⟨2, "book_title2", none, none, none⟩,
    ⟨3, "book_title3", none, none, none⟩],
   [⟨1, 1, "review 1", 0⟩],
   [⟨1, "name1"⟩]⟩

/-- C8 witness: on `sampleStore` (whose only Review key is (1, 1)), creating
a second Review with the pair (1, 1) is rejected, the store kept, and the
keys stay pairwise distinct. -/
theorem review_composite_key_invariant_witness :
    (reviewKeys sampleStore).Nodup ∧
    (((1, 1) ∈ reviewKeys sampleStore →
      (createReview 0 sampleStore 1 1 "again" none 7).1 = sampleStore ∧
      ∃ e, (createReview 0 sampleStore 1 1 "again" none 7).2 = .error e) ∧
    (reviewKeys (createReview 0 sampleStore 1 1 "again" none 7).1).Nodup) :=
  ⟨by decide, review_composite_key_invariant 0 sampleStore 1 1 7 "again" none
    (by decide)⟩

/-- C9: the demo declares `created = db.Column(db.DateTime,
default=datetime.datetime.now())`, so the default is the single timestamp
captured when the class body ran (here 0), not the row-creation time: two
Reviews created at request times 10 and 20 without an explicit `created`
value record the same `created` timestamp. -/
theorem review_created_equal_at_different_times :
    ∃ r1 r2 : ReviewRow,
      (createReview 0 sampleStore 1 2 "second" none 10).2 = Except.ok r1 ∧
      (createReview 0 (createReview 0 sampleStore 1 2 "second" none 10).1
        1 3 "third" none 20).2 = Except.ok r2 ∧
      r1.created = 0 ∧ r2.created = 0 ∧ r1.created = r2.created ∧
      (10 : Nat) ≠ 20 :=
  ⟨_, _, rfl, rfl, rfl, rfl, rfl, by decide⟩

/-- Modelled from the spec: page `n` of a collection endpoint with page size
`size` over the stably-sorted, filtered list of row ids: the ids at offsets
`n*size` up to `n*size + size - 1`.  (Pagination is safrs framework code, not
part of the demo file.) -/
def pageOf (rows : List Nat) (size n : Nat) : List Nat :=
  (rows.drop (n * size)).take size

lemma pageOf_join (rows : List Nat) (size : Nat) :
    ∀ k, (List.range k).flatMap (pageOf rows size) = rows.take (k * size) := by
  intro k
  induction k with
  | zero => simp
  | succ m ih =>
    rw [List.range_succ, List.flatMap_append, ih]
    simp [pageOf, Nat.succ_mul, List.take_add]

lemma pageOf_disjoint (rows : List Nat) (size n : Nat) (hnd : rows.Nodup) :
    ∀ x, x ∈ pageOf rows size n → x ∉ pageOf rows size (n + 1) := by
  intro x hx hx'
  have hl : (rows.drop (n * size)).Nodup := hnd.sublist (List.drop_sublist _ _)
  rw [← List.take_append_drop size (rows.drop (n * size))] at hl
  obtain ⟨-, -, hdisj⟩ := List.nodup_append.mp hl
  have hdrop : rows.drop ((n + 1) * size) = (rows.drop (n * size)).drop size := by
    rw [List.drop_drop]
    congr 1
    ring
  have hx2 : x ∈ (rows.drop (n * size)).drop size := by
    have := List.take_subset size (rows.drop ((n + 1) * size)) hx'
    rwa [hdrop] at this
  exact hdisj hx hx2

/-- C4: over the filtered id list of a collection endpoint with a stable sort
(the source ids being pairwise distinct), page `n` and page `n+1` are
disjoint, and the concatenation of all pages (enough pages to cover the list)
equals the full filtered id list. -/
theorem pagination_pages_partition (ids : List Nat) (f : Nat → Bool)
    (size n k : Nat) (hnd : ids.Nodup)
    (hk : (ids.filter f).length ≤ k * size) :
    (∀ x, x ∈ pageOf (ids.filter f) size n →
      x ∉ pageOf (ids.filter f) size (n + 1)) ∧
    (List.range k).flatMap (pageOf (ids.filter f) size) = ids.filter f := by
  refine ⟨pageOf_disjoint _ _ _ (hnd.filter f), ?_⟩
  rw [pageOf_join, List.take_of_length_le hk]

/-- C4 witness: ids 1..5 filtered to the odd ones [1, 3, 5], page size 2:
page 0 and page 1 are disjoint and pages 0 and 1 together restore the list. -/
theorem pagination_pages_partition_witness :
    ([1, 2, 3, 4, 5] : List Nat).Nodup ∧
    (([1, 2, 3, 4, 5] : List Nat).filter (fun x => x % 2 == 1)).length ≤ 2 * 2 ∧
    ((∀ x, x ∈ pageOf (([1, 2, 3, 4, 5] : List Nat).filter (fun x => x % 2 == 1)) 2 0 →
      x ∉ pageOf (([1, 2, 3, 4, 5] : List Nat).filter (fun x => x % 2 == 1)) 2 1) ∧
    (List.range 2).flatMap
        (pageOf (([1, 2, 3, 4, 5] : List Nat).filter (fun x => x % 2 == 1)) 2)
      = ([1, 2, 3, 4, 5] : List Nat).filter (fun x => x % 2 == 1)) :=
  ⟨by decide, by decide,
   pagination_pages_partition [1, 2, 3, 4, 5] (fun x => x % 2 == 1) 2 0 2
     (by decide) (by decide)⟩

/-- A response sent to a client: HTTP status code and body. -/
structure HttpResponse where
  status : Nat
  body : String
  deriving DecidableEq, Repr

/-- Modelled from the spec: the framework invokes a custom operation (an
entity-bound callable such as `Person.my_rpc`) on a request; if the operation
raises an unhandled exception, the framework logs the exception and returns a
generic server error response instead of crashing.  (The wrapper is safrs
framework code, not part of the demo file.) -/
def dispatch (op : Nat → Except String HttpResponse)
    (logEntries : List String) (req : Nat) : HttpResponse × List String :=
  match op req with
  | .ok resp => (resp, logEntries)
  | .error exc => (⟨500, "Internal Server Error"⟩, logEntries ++ [exc])

/-- Modelled from the spec: the server keeps serving after a failed request:
each queued request is dispatched in turn and gets exactly one response. -/
def serve (op : Nat → Except String HttpResponse)
    (logEntries : List String) : List Nat → List HttpResponse × List String
  | [] => ([], logEntries)
  | r :: rest =>
    let out := dispatch op logEntries r
    let outs := serve op out.2 rest
    (out.1 :: outs.1, outs.2)

lemma serve_log_mono (op : Nat → Except String HttpResponse)
    (reqs : List Nat) : ∀ lg x, x ∈ lg → x ∈ (serve op lg reqs).2 := by
  induction reqs with
  | nil => intro lg x hx; simpa [serve] using hx
  | cons r rest ih =>
    intro lg x hx
    simp only [serve]
    apply ih
    unfold dispatch
    cases hop : op r <;> simp [hx]

lemma serve_length (op : Nat → Except String HttpResponse)
    (reqs : List Nat) : ∀ lg, (serve op lg reqs).1.length = reqs.length := by
  induction reqs with
  | nil => intro lg; rfl
  | cons r rest ih => intro lg; simp [serve, ih]

/-- C6: when a custom operation raises an unhandled exception on a request,
the exception ends up in the log, the caller of that request receives the
generic 500 server error, and the process goes on serving: every request in
the queue, the failing one included, gets exactly one response. -/
theorem custom_op_exception_handled (op : Nat → Except String HttpResponse)
    (lg : List String) (r : Nat) (rest : List Nat) (exc : String)
    (h : op r = .error exc) :
    (serve op lg (r :: rest)).1.head? = some ⟨500, "Internal Server Error"⟩ ∧
    exc ∈ (serve op lg (r :: rest)).2 ∧
    (serve op lg (r :: rest)).1.length = rest.length + 1 := by
  refine ⟨by simp [serve, dispatch, h], ?_, by rw [serve_length]; simp⟩
  simp only [serve, dispatch, h]
  exact serve_log_mono op rest (lg ++ [exc]) exc (by simp)

/-- C6 witness: an operation that raises on every request: serving requests
[0, 1, 2] logs the exception of request 0, answers it with a 500, and still
produces three responses. -/
theorem custom_op_exception_handled_witness :
    ((fun _ : Nat => (Except.error "boom" : Except String HttpResponse)) 0
      = Except.error "boom") ∧
    ((serve (fun _ => Except.error "boom") [] (0 :: [1, 2])).1.head?
        = some ⟨500, "Internal Server Error"⟩ ∧
      "boom" ∈ (serve (fun _ => Except.error "boom") [] (0 :: [1, 2])).2 ∧
      (serve (fun _ => Except.error "boom") [] (0 :: [1, 2])).1.length
        = [1, 2].length + 1) :=
  ⟨rfl, custom_op_exception_handled (fun _ => Except.error "boom")
    [] 0 [1, 2] "boom" rfl⟩

/-- Python dict assignment `d[k] = v`: replaces the value in place when the
key is already present, otherwise appends the binding at the end. -/
def dictInsert (d : List (String × String)) (k v : String) :
    List (String × String) :=
  if d.any (fun p => p.1 == k) then
    d.map (fun p => if p.1 == k then (k, v) else p)
  else d ++ [(k, v)]

/-- `Publisher.to_dict` from the source: take the base serialization
(`SAFRSBase.to_dict(self)`, framework code, passed in here as `base`) and
perform `result["custom_field"] = "some customization"`. -/
def Publisher.to_dict (base : List (String × String)) :
    List (String × String) :=
  dictInsert base "custom_field" "some customization"

/-- C7: when the base serialization does not already carry a `custom_field`
key (the base serialization of `Publisher` has only its column fields `id`
and `name`), `Publisher.to_dict` returns the base serialization extended with
exactly the one binding `custom_field = "some customization"`: every base
field is kept unchanged and exactly one field is added. -/
theorem publisher_to_dict_adds_custom_field (base : List (String × String))
    (h : "custom_field" ∉ base.map Prod.fst) :
    Publisher.to_dict base = base ++ [("custom_field", "some customization")] ∧
    (Publisher.to_dict base).map Prod.fst
      = base.map Prod.fst ++ ["custom_field"] ∧
    ("custom_field", "some customization") ∈ Publisher.to_dict base := by
  have hany : base.any (fun p => p.1 == "custom_field") = false := by
    rw [List.any_eq_false]
    intro p hp
    simp only [beq_iff_eq]
    intro hk
    exact h (List.mem_map.mpr ⟨p, hp, hk⟩)
  have heq : Publisher.to_dict base
      = base ++ [("custom_field", "some customization")] := by
    simp [Publisher.to_dict, dictInsert, hany]
  refine ⟨heq, ?_, ?_⟩
  · rw [heq]; simp
  · rw [heq]; simp

/-- C7 witness: on the base serialization of a Publisher row (columns `id`
and `name`), `to_dict` adds exactly the `custom_field` binding. -/
theorem publisher_to_dict_adds_custom_field_witness :
    "custom_field" ∉ ([("id", "1"), ("name", "name1")].map Prod.fst) ∧
    (Publisher.to_dict [("id", "1"), ("name", "name1")]
      = [("id", "1"), ("name", "name1")]
        ++ [("custom_field", "some customization")] ∧
    (Publisher.to_dict [("id", "1"), ("name", "name1")]).map Prod.fst
      = [("id", "1"), ("name", "name1")].map Prod.fst ++ ["custom_field"] ∧
    ("custom_field", "some customization")
      ∈ Publisher.to_dict [("id", "1"), ("name", "name1")]) :=
  ⟨by decide,
   publisher_to_dict_adds_custom_field [("id", "1"), ("name", "name1")]
     (by decide)⟩

/-- `Person.send_mail` from the source: build
`content = "Mail to NAME : EMAIL\n"` with `str.format`, append `content` to
the mail file (`/tmp/mail.txt`, modelled by the string of its current
contents), and return the dictionary with the single key `result` and value
`"sent " + content`; the database store is not touched. -/
def Person.send_mail (p : PersonRow) (email : String)
    (mailFile : String) (s : Store) :
    List (String × String) × String × Store :=
  let content := "Mail to " ++ p.name ++ " : " ++ email ++ "\n"
  ([("result", "sent " ++ content)], mailFile ++ content, s)

/-- C10: `send_mail` on a Person `p` with a string `email` returns the
dictionary mapping `result` to `"sent Mail to NAME : EMAIL\n"`, appends
exactly the string `"Mail to NAME : EMAIL\n"` to the mail file, and leaves
the store (and `p`, which it only reads) unchanged. -/
theorem send_mail_result_and_file (p : PersonRow) (email mailFile : String)
    (s : Store) :
    Person.send_mail p email mailFile s =
      ([("result", "sent Mail to " ++ p.name ++ " : " ++ email ++ "\n")],
       mailFile ++ ("Mail to " ++ p.name ++ " : " ++ email ++ "\n"), s) := by
  have hlit : ("sent " ++ "Mail to " : String) = "sent Mail to " := by decide
  simp only [Person.send_mail, ← String.append_assoc]
  rw [hlit]
